import Mathlib

/-!
Verification of the plugin discovery layer of TaskWeaver
(`taskweaver/memory/plugin.py`).

The Python module defines:
* `PluginParameter` — name/type/required/description of one argument or
  return value, parsed from a declarative (YAML) record;
* `PluginSpec` — a plugin specification (name, description, args, returns,
  embedding vector) with a deterministic prompt rendering `format_prompt`;
* `PluginEntry` — a loaded plugin (spec + implementation reference +
  configuration + required/enabled flags), built from one YAML file;
* `PluginRegistry._load_component` — loads one file, raises when parsing
  fails or when the plugin is disabled, and (when auto plugin selection is
  enabled) eagerly stores an embedding of `name + ": " + description`.

Declarative records are modelled as structures of `Option` fields: `none`
means the key is absent from the mapping, so a Python `d["k"]` KeyError
becomes an `Except.error`.  Python exceptions become `Except String`.
Embedding vectors carry no arithmetic here, so the `List[float]` payload is
modelled with an exact numeric type (`List Rat`).
-/

/-- A declarative record for one parameter or return value, as read from a
YAML mapping.  `none` = the key is absent.  The `description` key, when
present, may itself hold a null value (`some none`), matching Python's
`Optional[str]` field. -/
structure ParamRecord where
  name : Option String
  description : Option (Option String)
  required : Option Bool
  type : Option String
deriving Repr, DecidableEq

/-- `PluginParameter`: plugin parameters, including arguments and return
values (plugin.py lines 15-22). -/
structure PluginParameter where
  name : String := ""
  type : String := "None"
  required : Bool := false
  description : Option String := none
deriving Repr, DecidableEq

/-- `PluginParameter.from_dict` (plugin.py lines 24-31): reads the mandatory
`name` and `description` keys (KeyError, i.e. `Except.error`, when absent),
defaults `required` to `false` and `type` to `"Any"` when those keys are
absent. -/
def PluginParameter.from_dict (d : ParamRecord) : Except String PluginParameter :=
  match d.name, d.description with
  | some n, some desc =>
      Except.ok
        { name := n
          description := desc
          required := d.required.getD false
          type := d.type.getD "Any" }
  | none, _ => Except.error "KeyError: name"
  | _, none => Except.error "KeyError: description"

/-- A declarative record for a whole plugin file, as read from YAML.
`none` = the key is absent.  `configurations` is a free-form mapping whose
values are never inspected by this module, modelled as string pairs. -/
structure SpecRecord where
  name : Option String
  description : Option String
  parameters : Option (List ParamRecord)
  returns : Option (List ParamRecord)
  code : Option String
  configurations : Option (List (String × String))
  required : Option Bool
  enabled : Option Bool
deriving Repr, DecidableEq

/-- `PluginSpec` (plugin.py lines 47-55). -/
structure PluginSpec where
  name : String := ""
  description : String := ""
  args : List PluginParameter := []
  returns : List PluginParameter := []
  embedding : List Rat := []
deriving Repr, DecidableEq

/-- The list comprehension `[PluginParameter.from_dict(p) for p in l]`:
Python raises at the first failing element; the error of the earliest bad
record wins. -/
def fromDictList : List ParamRecord → Except String (List PluginParameter)
  | [] => Except.ok []
  | p :: ps =>
      match PluginParameter.from_dict p, fromDictList ps with
      | Except.ok v, Except.ok vs => Except.ok (v :: vs)
      | Except.error e, _ => Except.error e
      | Except.ok _, Except.error e => Except.error e

/-- `PluginSpec.from_dict` (plugin.py lines 57-65): reads the mandatory
`name`, `description`, `parameters`, `returns` keys (KeyError when absent,
in that evaluation order), parses every parameter and return record, and
starts with an empty embedding. -/
def PluginSpec.from_dict (d : SpecRecord) : Except String PluginSpec :=
  match d.name, d.description, d.parameters, d.returns with
  | some n, some desc, some ps, some rs =>
      match fromDictList ps, fromDictList rs with
      | Except.ok args, Except.ok rets =>
          Except.ok { name := n, description := desc, args := args, returns := rets, embedding := [] }
      | Except.error e, _ => Except.error e
      | Except.ok _, Except.error e => Except.error e
  | none, _, _, _ => Except.error "KeyError: name"
  | _, none, _, _ => Except.error "KeyError: description"
  | _, _, none, _ => Except.error "KeyError: parameters"
  | _, _, _, none => Except.error "KeyError: returns"

/-- Character-level transcription of Python's `str.lower()` (the type
strings compared here are ASCII). -/
def pyLower (t : String) : String :=
  String.mk (t.data.map Char.toLower)

/-- `normalize_type` inside `PluginSpec.format_prompt` (plugin.py lines
68-73): case-insensitive alias normalization. -/
def normalizeType (t : String) : String :=
  if pyLower t = "string" then "str"
  else if pyLower t = "integer" then "int"
  else t

/-- Character-level transcription of `d.replace("\n", "\n# ")`: every
newline is followed by a `"# "` comment marker.  Python's `str.replace`
never rescans replaced text, so a single left-to-right pass is exact. -/
def foldNewlines : List Char → List Char
  | [] => []
  | c :: rest =>
      if c = '\n' then '\n' :: '#' :: ' ' :: foldNewlines rest
      else c :: foldNewlines rest

/-- Character-level transcription of Python's `str.strip()`: whitespace is
removed from both ends. -/
def pyStrip (s : String) : String :=
  String.mk (((s.data.dropWhile Char.isWhitespace).reverse.dropWhile Char.isWhitespace).reverse)

/-- `normalize_description` inside `PluginSpec.format_prompt` (plugin.py
lines 75-77): `d.strip().replace("\n", "\n# ")`. -/
def normalizeDescription (d : String) : String :=
  String.mk (foldNewlines (pyStrip d).data)

/-- `normalize_value` inside `PluginSpec.format_prompt` (plugin.py lines
79-85).  Note `v.description or ""` turns an absent description into `""`,
so the result's description is always present. -/
def normalizeValue (v : PluginParameter) : PluginParameter :=
  { name := v.name
    type := normalizeType v.type
    required := v.required
    description := some (normalizeDescription (v.description.getD "")) }

/-- The `type_val` expression inside `format_arg_val` (plugin.py line 89):
`f"Optional[{val.type}]" if val.type != "Any" and not val.required else "Any"`,
applied to an already-normalized value. -/
def argTypeVal (val : PluginParameter) : String :=
  if val.type ≠ "Any" ∧ val.required = false then "Optional[" ++ val.type ++ "]" else "Any"

/-- `format_arg_val` inside `PluginSpec.format_prompt` (plugin.py lines
87-92). -/
def formatArgVal (v : PluginParameter) : String :=
  let val := normalizeValue v
  match val.description with
  | some d => "\n# " ++ d ++ "\n" ++ val.name ++ ": " ++ argTypeVal val
  | none => val.name ++ ": " ++ argTypeVal val

/-- `format_return_val` inside `PluginSpec.format_prompt` (plugin.py lines
99-103), used when there is more than one return value. -/
def formatReturnVal (v : PluginParameter) : String :=
  let val := normalizeValue v
  match val.description with
  | some d => "\n# " ++ val.name ++ ": " ++ d ++ "\n" ++ val.type
  | none => val.type

/-- The `return_type` computation in `PluginSpec.format_prompt` (plugin.py
lines 96-112).  In the single-return branch the Python code first assigns a
description-bearing string (line 109) and then unconditionally overwrites
it with `rv.type` (line 110), so only the normalized type survives. -/
def returnTypeString (returns : List PluginParameter) : String :=
  match returns with
  | [] => "None"
  | [r] => (normalizeValue r).type
  | rs => "Tuple[" ++ String.intercalate "," (rs.map formatReturnVal) ++ "]"

/-- `PluginSpec.format_prompt` (plugin.py lines 67-113). -/
def PluginSpec.format_prompt (s : PluginSpec) : String :=
  let paramList := String.intercalate "," (s.args.map formatArgVal)
  "# " ++ s.description ++ "\ndef " ++ s.name ++ "(" ++ paramList ++ ") -> "
    ++ returnTypeString s.returns ++ ":...\n"

/-- `PluginEntry` (plugin.py lines 116-123). -/
structure PluginEntry where
  name : String
  impl : String
  spec : PluginSpec
  config : List (String × String)
  required : Bool
  enabled : Bool := true
deriving Repr, DecidableEq

/-- `PluginEntry.from_yaml` (plugin.py lines 125-142), applied to the
already-read YAML content.  `do_validate` is the constant `False`, so the
validation branch (and the `return None` fall-through) is dead code; a
parse failure inside `PluginSpec.from_dict` propagates as an exception,
modelled by `Except.error`.  `code` defaults to the spec name, `required`
to `False`, `enabled` to `True`, `configurations` to the empty mapping. -/
def PluginEntry.fromYamlContent (content : SpecRecord) : Except String PluginEntry :=
  match PluginSpec.from_dict content with
  | Except.error e => Except.error e
  | Except.ok spec =>
      Except.ok
        { name := spec.name
          impl := content.code.getD spec.name
          spec := spec
          config := content.configurations.getD []
          required := content.required.getD false
          enabled := content.enabled.getD true }

/-- `PluginRegistry._load_component` (plugin.py lines 166-174), applied to
the file's content.  A failed load raises; a disabled plugin raises
`"plugin <name> is disabled"`; when `enable_auto_plugin_selection` is set,
the embedding of `entry.name + ": " + entry.spec.description` is stored on
the spec before the entry is returned. -/
def loadComponent (enableAutoPluginSelection : Bool) (embed : String → List Rat)
    (content : SpecRecord) : Except String (String × PluginEntry) :=
  match PluginEntry.fromYamlContent content with
  | Except.error e => Except.error e
  | Except.ok entry =>
      if entry.enabled = false then
        Except.error ("plugin " ++ entry.name ++ " is disabled")
      else
        let entry :=
          if enableAutoPluginSelection then
            { entry with
                spec := { entry.spec with
                            embedding := embed (entry.name ++ ": " ++ entry.spec.description) } }
          else entry
        Except.ok (entry.name, entry)

/-- Insert with dict semantics: a later write for an existing key replaces
the earlier entry. -/
def insertEntry (m : List (String × PluginEntry)) (n : String) (e : PluginEntry) :
    List (String × PluginEntry) :=
  (m.filter (fun p => p.1 ≠ n)) ++ [(n, e)]

/-- Modelled from the spec: `ComponentRegistry` (`taskweaver/misc/
component_registry.py`, not under src/).  The refresh algorithm enumerates
the files matched by the glob, attempts `loadComponent` on each, records
and skips failures without aborting the refresh, assembles a brand-new
`name → entry` mapping from the successful loads (last writer wins), and
swaps it in as the new snapshot; `list()` returns the entries of the
current snapshot.  `registryStep` is the per-file step: a successful load
is inserted, a failure is skipped. -/
def registryStep (enableAutoPluginSelection : Bool) (embed : String → List Rat)
    (acc : List (String × PluginEntry)) (content : SpecRecord) :
    List (String × PluginEntry) :=
  match loadComponent enableAutoPluginSelection embed content with
  | Except.ok (n, e) => insertEntry acc n e
  | Except.error _ => acc

/-- Modelled from the spec: the refresh assembles a brand-new mapping by
folding `registryStep` over the discovered files, starting from the empty
snapshot. -/
def refreshSnapshot (enableAutoPluginSelection : Bool) (embed : String → List Rat)
    (files : List SpecRecord) : List (String × PluginEntry) :=
  files.foldl (registryStep enableAutoPluginSelection embed) []

/-- Modelled from the spec: `list()` returns all current entries of the
snapshot. -/
def registryList (enableAutoPluginSelection : Bool) (embed : String → List Rat)
    (files : List SpecRecord) : List PluginEntry :=
  (refreshSnapshot enableAutoPluginSelection embed files).map Prod.snd

/-- Boolean success test for `Except`. -/
def exceptOk : Except String α → Bool
  | Except.ok _ => true
  | Except.error _ => false

/-- Prepend a character to the first of a list of lines. -/
def consHead (c : Char) : List (List Char) → List (List Char)
  | [] => [[c]]
  | l :: ls => (c :: l) :: ls

/-- Lines of a character list, split at every newline character. -/
def splitLines : List Char → List (List Char)
  | [] => [[]]
  | c :: rest =>
      if c = '\n' then [] :: splitLines rest
      else consHead c (splitLines rest)

/-! Concrete sample data used by the witness theorems. -/

/-- A concrete (injective on these inputs) embedding collaborator: maps a
text to the one-element vector holding its length. -/
def embedLen : String → List Rat := fun s => [(s.data.length : Rat)]

/-- A well-formed parameter record. -/
def prGood : ParamRecord :=
  { name := some "df", description := some (some "input data"),
    required := some true, type := some "string" }

/-- A parameter record with its `description` key absent. -/
def prNoDesc : ParamRecord :=
  { name := some "df", description := none, required := none, type := none }

/-- A parameter record relying on the `required`/`type` defaults. -/
def prDefaults : ParamRecord :=
  { name := some "k", description := some none, required := none, type := none }

/-- The parameter produced by parsing `prDefaults`. -/
def paramDefaults : PluginParameter :=
  { name := "k", type := "Any", required := false, description := none }

/-- A parameter record whose `name` value is the empty string. -/
def prEmptyName : ParamRecord :=
  { name := some "", description := some (some "d"), required := none, type := none }

/-- The parameter produced by parsing `prEmptyName`: its name is empty. -/
def paramEmptyName : PluginParameter :=
  { name := "", type := "Any", required := false, description := some "d" }

/-- A well-formed plugin record relying on the `code`/`configurations`/
`required`/`enabled` defaults. -/
def recGood : SpecRecord :=
  { name := some "anomaly_detection", description := some "detect abnormal data points",
    parameters := some [prGood], returns := some [prGood],
    code := none, configurations := none, required := none, enabled := none }

/-- The same plugin record, explicitly disabled. -/
def recDisabled : SpecRecord := { recGood with enabled := some false }

/-- A plugin record with its `description` key absent. -/
def recBad : SpecRecord := { recGood with description := none }

/-- The parameter produced by parsing `prGood`. -/
def paramGood : PluginParameter :=
  { name := "df", type := "string", required := true, description := some "input data" }

/-- The specification produced by parsing `recGood`. -/
def specGood : PluginSpec :=
  { name := "anomaly_detection", description := "detect abnormal data points",
    args := [paramGood], returns := [paramGood], embedding := [] }

/-- The entry loaded from `recGood` with auto plugin selection off. -/
def loadedPlain : PluginEntry :=
  { name := "anomaly_detection", impl := "anomaly_detection", spec := specGood,
    config := [], required := false, enabled := true }

/-- The entry loaded from `recGood` with auto plugin selection on and the
`embedLen` collaborator. -/
def loadedAuto : PluginEntry :=
  { loadedPlain with
      spec := { specGood with
                  embedding := embedLen "anomaly_detection: detect abnormal data points" } }

/-- A sample return value of declared type `"string"`. -/
def paramStr : PluginParameter :=
  { name := "out", type := "string", required := false, description := some "result" }

/-- A sample specification with no return values. -/
def specZero : PluginSpec := { name := "f", description := "d", args := [], returns := [] }

/-- A sample specification with one return value. -/
def specOne : PluginSpec := { specZero with returns := [paramStr] }

/-- A sample specification with two return values. -/
def specTwo : PluginSpec :=
  { specZero with
      returns := [paramStr, { name := "n", type := "integer", required := false, description := none }] }

/-! ## Helper lemmas -/

theorem splitLines_ne_nil (l : List Char) : splitLines l ≠ [] := by
  cases l with
  | nil => simp [splitLines]
  | cons c rest =>
    simp only [splitLines]
    split
    · simp
    · cases h : splitLines rest with
      | nil => simp [consHead]
      | cons q qs => simp [consHead]

theorem splitLines_cons_ex (m : List Char) : ∃ q qs, splitLines m = q :: qs := by
  cases h : splitLines m with
  | nil => exact absurd h (splitLines_ne_nil m)
  | cons q qs => exact ⟨q, qs, rfl⟩

theorem splitLines_newline (rest : List Char) :
    splitLines ('\n' :: rest) = [] :: splitLines rest := by
  simp [splitLines]

theorem splitLines_char (c : Char) (rest : List Char) (h : c ≠ '\n') :
    splitLines (c :: rest) = consHead c (splitLines rest) := by
  simp [splitLines, h]

theorem foldNewlines_newline (rest : List Char) :
    foldNewlines ('\n' :: rest) = '\n' :: '#' :: ' ' :: foldNewlines rest := by
  simp [foldNewlines]

theorem foldNewlines_char (c : Char) (rest : List Char) (h : c ≠ '\n') :
    foldNewlines (c :: rest) = c :: foldNewlines rest := by
  simp [foldNewlines, h]

theorem foldNewlines_tail_lines (cs : List Char) :
    ∀ l ∈ (splitLines (foldNewlines cs)).tail, l.take 2 = ['#', ' '] := by
  induction cs with
  | nil =>
    intro l hl
    simp [foldNewlines, splitLines] at hl
  | cons c rest ih =>
    intro l hl
    obtain ⟨q, qs, hq⟩ := splitLines_cons_ex (foldNewlines rest)
    by_cases hc : c = '\n'
    · subst hc
      rw [foldNewlines_newline, splitLines_newline,
        splitLines_char '#' _ (by decide), splitLines_char ' ' _ (by decide), hq] at hl
      simp only [consHead, List.tail_cons] at hl
      rcases List.mem_cons.mp hl with h1 | h1
      · subst h1; rfl
      · exact ih l (by rw [hq]; simpa using h1)
    · rw [foldNewlines_char c _ hc, splitLines_char c _ hc, hq] at hl
      simp only [consHead, List.tail_cons] at hl
      exact ih l (by rw [hq]; simpa using hl)

theorem optional_ne_any (t : String) : "Optional[" ++ t ++ "]" ≠ "Any" := by
  intro h
  have h2 := congrArg (fun s : String => s.data.length) h
  simp [String.data_append, List.length_append] at h2

/-! ## Claim theorems: prompt rendering -/

/-- C7: prompt rendering is pure and deterministic — the rendering depends
only on the specification value, so equal specifications render to
byte-identical strings (and any two calls on the same value agree). -/
theorem format_prompt_deterministic (s t : PluginSpec) (h : s = t) :
    s.format_prompt = t.format_prompt := by
  rw [h]

/-- Witness for C7 at a concrete specification. -/
theorem format_prompt_deterministic_witness :
    specGood.format_prompt = specGood.format_prompt :=
  format_prompt_deterministic specGood specGood rfl

/-- C2: the rendered return type is the single return value's normalized
type when there is exactly one return value, the tuple-like
`Tuple[...]` of the rendered return values (each of which ends with its
normalized type) in sequence order when there are two or more, and
`"None"` when there are none; `format_prompt` places exactly that string
in the return-annotation position. -/
theorem return_type_rendering (s : PluginSpec) :
    (s.returns = [] → returnTypeString s.returns = "None") ∧
    (∀ r, s.returns = [r] → returnTypeString s.returns = normalizeType r.type) ∧
    (2 ≤ s.returns.length →
      returnTypeString s.returns =
        "Tuple[" ++ String.intercalate "," (s.returns.map formatReturnVal) ++ "]" ∧
      ∀ r ∈ s.returns, ∃ pre, formatReturnVal r = pre ++ normalizeType r.type) ∧
    s.format_prompt = "# " ++ s.description ++ "\ndef " ++ s.name ++ "(" ++
      String.intercalate "," (s.args.map formatArgVal) ++ ") -> " ++
      returnTypeString s.returns ++ ":...\n" := by
  refine ⟨?_, ?_, ?_, rfl⟩
  · intro h; rw [h]; rfl
  · intro r h; rw [h]; rfl
  · intro h
    rcases hrs : s.returns with _ | ⟨a, _ | ⟨b, t⟩⟩
    · rw [hrs] at h; simp at h
    · rw [hrs] at h; simp at h
    · refine ⟨rfl, ?_⟩
      intro r hr2
      exact ⟨"\n# " ++ (normalizeValue r).name ++ ": " ++
        normalizeDescription (r.description.getD "") ++ "\n", rfl⟩

/-- Witness for C2 at concrete specifications with zero, one and two
return values. -/
theorem return_type_rendering_witness :
    returnTypeString specZero.returns = "None" ∧
    returnTypeString specOne.returns = normalizeType "string" ∧
    returnTypeString specTwo.returns =
      "Tuple[" ++ String.intercalate "," (specTwo.returns.map formatReturnVal) ++ "]" :=
  ⟨(return_type_rendering specZero).1 rfl,
   (return_type_rendering specOne).2.1 paramStr rfl,
   ((return_type_rendering specTwo).2.2.1 (by decide)).1⟩

/-- C9: in the rendered argument list the annotation is
`Optional[<normalized type>]` exactly when the parameter is not required
and its normalized type is not `"Any"`; a required parameter, or one whose
normalized type is `"Any"`, is annotated exactly `"Any"` (so a required
parameter's declared type never reaches the rendered annotation). -/
theorem arg_type_rendering (v : PluginParameter) :
    (v.required = true → argTypeVal (normalizeValue v) = "Any") ∧
    (normalizeType v.type = "Any" → argTypeVal (normalizeValue v) = "Any") ∧
    (v.required = false → normalizeType v.type ≠ "Any" →
      argTypeVal (normalizeValue v) = "Optional[" ++ normalizeType v.type ++ "]") ∧
    (argTypeVal (normalizeValue v) = "Optional[" ++ normalizeType v.type ++ "]" →
      v.required = false ∧ normalizeType v.type ≠ "Any") ∧
    formatArgVal v = "\n# " ++ normalizeDescription (v.description.getD "") ++ "\n" ++
      v.name ++ ": " ++ argTypeVal (normalizeValue v) := by
  have hT : (normalizeValue v).type = normalizeType v.type := rfl
  have hR : (normalizeValue v).required = v.required := rfl
  refine ⟨?_, ?_, ?_, ?_, rfl⟩
  · intro h
    simp [argTypeVal, hT, hR, h]
  · intro h
    simp [argTypeVal, hT, hR, h]
  · intro h1 h2
    simp [argTypeVal, hT, hR, h1, h2]
  · intro h
    by_cases hc : normalizeType v.type ≠ "Any" ∧ v.required = false
    · exact ⟨hc.2, hc.1⟩
    · exfalso
      have hAny : argTypeVal (normalizeValue v) = "Any" := by
        simp only [argTypeVal, hT, hR]
        rw [if_neg hc]
      rw [hAny] at h
      exact optional_ne_any (normalizeType v.type) h.symm

/-- Witness for C9 at concrete parameters: a required `"string"` parameter
is annotated `"Any"`, an optional one `"Optional[str]"`. -/
theorem arg_type_rendering_witness :
    argTypeVal (normalizeValue paramGood) = "Any" ∧
    argTypeVal (normalizeValue paramStr) = "Optional[" ++ normalizeType "string" ++ "]" :=
  ⟨(arg_type_rendering paramGood).1 rfl,
   (arg_type_rendering paramStr).2.2.1 rfl (by decide)⟩

/-- C10: for a specification with exactly one return value, the rendered
prompt carries only the normalized return type as the return annotation;
changing the return value's description (even to a non-empty string) does
not change the rendered output at all, because the description-bearing
rendering computed at plugin.py line 109 is unconditionally overwritten at
line 110. -/
theorem single_return_drops_description (s : PluginSpec) (r : PluginParameter)
    (h : s.returns = [r]) :
    s.format_prompt = "# " ++ s.description ++ "\ndef " ++ s.name ++ "(" ++
      String.intercalate "," (s.args.map formatArgVal) ++ ") -> " ++
      normalizeType r.type ++ ":...\n" ∧
    ∀ d2, PluginSpec.format_prompt { s with returns := [{ r with description := d2 }] } =
      s.format_prompt := by
  constructor
  · simp only [PluginSpec.format_prompt, h]
    rfl
  · intro d2
    simp only [PluginSpec.format_prompt, h]
    rfl

/-- Witness for C10 at a concrete single-return specification. -/
theorem single_return_drops_description_witness :
    specOne.format_prompt = "# " ++ specOne.description ++ "\ndef " ++ specOne.name ++ "(" ++
      String.intercalate "," (specOne.args.map formatArgVal) ++ ") -> " ++
      normalizeType paramStr.type ++ ":...\n" ∧
    PluginSpec.format_prompt
        { specOne with returns := [{ paramStr with description := some "IGNORED" }] } =
      specOne.format_prompt :=
  ⟨(single_return_drops_description specOne paramStr rfl).1,
   (single_return_drops_description specOne paramStr rfl).2 (some "IGNORED")⟩

/-- C5: prompt rendering normalizes type aliases — a type equal to
`"string"` up to case becomes `"str"`, one equal to `"integer"` up to case
becomes `"int"` — and these normalized fields are exactly what the
rendering of a parameter or return value uses; a multi-line description is
folded so that, in the rendered output, every line after the first starts
with the `"# "` comment marker. -/
theorem normalization_rules :
    (∀ t, pyLower t = "string" → normalizeType t = "str") ∧
    (∀ t, pyLower t = "integer" → normalizeType t = "int") ∧
    (∀ v, (normalizeValue v).type = normalizeType v.type ∧
      (normalizeValue v).description = some (normalizeDescription (v.description.getD ""))) ∧
    (∀ d, ∀ l ∈ (splitLines (normalizeDescription d).data).tail, l.take 2 = ['#', ' ']) := by
  refine ⟨?_, ?_, fun v => ⟨rfl, rfl⟩, ?_⟩
  · intro t h
    simp [normalizeType, h]
  · intro t h
    have hne : pyLower t ≠ "string" := by rw [h]; decide
    simp [normalizeType, h, hne]
  · intro d
    exact foldNewlines_tail_lines (pyStrip d).data

/-- Witness for C5 at concrete inputs: alias normalization on `"STRING"`
and `"Integer"`, and the folded rendering of the two-line description
`"a\nb"`, whose second line is `"# b"`. -/
theorem normalization_rules_witness :
    normalizeType "STRING" = "str" ∧
    normalizeType "Integer" = "int" ∧
    (['#', ' ', 'b'] : List Char).take 2 = ['#', ' '] :=
  ⟨normalization_rules.1 "STRING" (by decide),
   normalization_rules.2.1 "Integer" (by decide),
   normalization_rules.2.2.2 "a\nb" ['#', ' ', 'b'] (by decide)⟩

/-! ## Parsing lemmas -/

theorem paramOk_iff (p : ParamRecord) :
    exceptOk (PluginParameter.from_dict p) = true ↔ p.name ≠ none ∧ p.description ≠ none := by
  cases hn : p.name <;> cases hd : p.description <;>
    simp [PluginParameter.from_dict, hn, hd, exceptOk]

theorem param_ok_inv (p : ParamRecord) (param : PluginParameter)
    (h : PluginParameter.from_dict p = Except.ok param) :
    p.name = some param.name ∧ p.description = some param.description ∧
    param.type = p.type.getD "Any" ∧ param.required = p.required.getD false := by
  cases hn : p.name <;> cases hd : p.description <;>
    simp [PluginParameter.from_dict, hn, hd] at h
  subst h
  exact ⟨rfl, rfl, rfl, rfl⟩

theorem fromDictList_cons_ok (p : ParamRecord) (ps : List ParamRecord) :
    exceptOk (fromDictList (p :: ps)) =
      (exceptOk (PluginParameter.from_dict p) && exceptOk (fromDictList ps)) := by
  simp only [fromDictList]
  cases PluginParameter.from_dict p <;> cases fromDictList ps <;> rfl

theorem fromDictList_ok_iff (ps : List ParamRecord) :
    exceptOk (fromDictList ps) = true ↔
      ∀ p ∈ ps, exceptOk (PluginParameter.from_dict p) = true := by
  induction ps with
  | nil => simp [fromDictList, exceptOk]
  | cons p ps ih =>
    rw [fromDictList_cons_ok, Bool.and_eq_true, ih]
    simp

theorem specFromDict_ok_inv (d : SpecRecord) (s : PluginSpec)
    (h : PluginSpec.from_dict d = Except.ok s) :
    d.name = some s.name ∧ d.description = some s.description ∧ s.embedding = [] := by
  cases hn : d.name <;> cases hdd : d.description <;> cases hps : d.parameters <;>
    cases hrs : d.returns <;> simp [PluginSpec.from_dict, hn, hdd, hps, hrs] at h
  rename_i n desc ps rs
  cases h1 : fromDictList ps <;> cases h2 : fromDictList rs <;> rw [h1, h2] at h <;> simp at h
  subst h
  exact ⟨rfl, rfl, rfl⟩

theorem fromYamlContent_ok_inv (c : SpecRecord) (e : PluginEntry)
    (h : PluginEntry.fromYamlContent c = Except.ok e) :
    e.enabled = c.enabled.getD true ∧ e.required = c.required.getD false ∧
    e.impl = c.code.getD e.spec.name ∧ e.name = e.spec.name ∧
    e.config = c.configurations.getD [] ∧ PluginSpec.from_dict c = Except.ok e.spec := by
  unfold PluginEntry.fromYamlContent at h
  cases hs : PluginSpec.from_dict c <;> rw [hs] at h <;> simp at h
  subst h
  exact ⟨rfl, rfl, rfl, rfl, rfl, rfl⟩

theorem fromDictList_fields_iff (ps : List ParamRecord) :
    exceptOk (fromDictList ps) = true ↔ ∀ p ∈ ps, p.name ≠ none ∧ p.description ≠ none := by
  simp only [fromDictList_ok_iff, paramOk_iff]

theorem specFromDict_ok_iff_aux (d : SpecRecord) (n desc : String)
    (ps rs : List ParamRecord) (hn : d.name = some n) (hdd : d.description = some desc)
    (hps : d.parameters = some ps) (hrs : d.returns = some rs) :
    exceptOk (PluginSpec.from_dict d) = true ↔
      exceptOk (fromDictList ps) = true ∧ exceptOk (fromDictList rs) = true := by
  simp only [PluginSpec.from_dict, hn, hdd, hps, hrs]
  cases h1 : fromDictList ps <;> cases h2 : fromDictList rs <;> simp [exceptOk]

/-- C3: parsing a declarative record into a specification fails exactly
when one of the required keys `name`, `description`, `parameters`,
`returns` is absent or some element of `parameters` or `returns` lacks its
`name` or `description` key; with all of them present it succeeds. -/
theorem parse_requires_fields (d : SpecRecord) :
    exceptOk (PluginSpec.from_dict d) = true ↔
      (d.name ≠ none ∧ d.description ≠ none ∧ d.parameters ≠ none ∧ d.returns ≠ none ∧
       (∀ ps, d.parameters = some ps → ∀ p ∈ ps, p.name ≠ none ∧ p.description ≠ none) ∧
       (∀ rs, d.returns = some rs → ∀ p ∈ rs, p.name ≠ none ∧ p.description ≠ none)) := by
  rcases hn : d.name with _ | n
  · simp [PluginSpec.from_dict, hn, exceptOk]
  rcases hdd : d.description with _ | desc
  · simp [PluginSpec.from_dict, hn, hdd, exceptOk]
  rcases hps : d.parameters with _ | ps
  · simp [PluginSpec.from_dict, hn, hdd, hps, exceptOk]
  rcases hrs : d.returns with _ | rs
  · simp [PluginSpec.from_dict, hn, hdd, hps, hrs, exceptOk]
  rw [specFromDict_ok_iff_aux d n desc ps rs hn hdd hps hrs,
    fromDictList_fields_iff, fromDictList_fields_iff]
  simp

/-- Witness for C3: a record with every required key parses; one missing
its `description` key does not. -/
theorem parse_requires_fields_witness :
    exceptOk (PluginSpec.from_dict recGood) = true ∧
    exceptOk (PluginSpec.from_dict recBad) = false :=
  ⟨(parse_requires_fields recGood).mpr
    (by
      refine ⟨by decide, by decide, by decide, by decide, ?_, ?_⟩ <;>
      · intro ls hls p hp
        have h2 : (some [prGood] : Option (List ParamRecord)) = some ls := hls
        have h3 : ls = [prGood] := (Option.some.inj h2).symm
        subst h3
        have h4 : p = prGood := by simpa using hp
        subst h4
        decide),
   by decide⟩

/-- C6: parsing defaults — a parameter record lacking the `type` key is
parsed with type `"Any"`, one lacking `required` with `required = false`;
a loaded entry's implementation reference defaults to the plugin name when
the record has no `code` key, `required` defaults to `false`, and
`enabled` defaults to `true`. -/
theorem defaulting_rules :
    (∀ p param, PluginParameter.from_dict p = Except.ok param →
      (p.type = none → param.type = "Any") ∧ (p.required = none → param.required = false)) ∧
    (∀ c e, PluginEntry.fromYamlContent c = Except.ok e →
      (c.code = none → e.impl = e.spec.name) ∧ (c.required = none → e.required = false) ∧
      (c.enabled = none → e.enabled = true)) := by
  constructor
  · intro p param h
    obtain ⟨-, -, ht, hr⟩ := param_ok_inv p param h
    constructor
    · intro h2; rw [ht, h2]; rfl
    · intro h2; rw [hr, h2]; rfl
  · intro c e h
    obtain ⟨he, hr, hi, -, -, -⟩ := fromYamlContent_ok_inv c e h
    refine ⟨?_, ?_, ?_⟩
    · intro h2; rw [hi, h2]; rfl
    · intro h2; rw [hr, h2]; rfl
    · intro h2; rw [he, h2]; rfl

/-- Witness for C6 at concrete records relying on every default. -/
theorem defaulting_rules_witness :
    paramDefaults.type = "Any" ∧ paramDefaults.required = false ∧
    loadedPlain.impl = loadedPlain.spec.name ∧ loadedPlain.required = false ∧
    loadedPlain.enabled = true :=
  ⟨(defaulting_rules.1 prDefaults paramDefaults rfl).1 rfl,
   (defaulting_rules.1 prDefaults paramDefaults rfl).2 rfl,
   (defaulting_rules.2 recGood loadedPlain rfl).1 rfl,
   (defaulting_rules.2 recGood loadedPlain rfl).2.1 rfl,
   (defaulting_rules.2 recGood loadedPlain rfl).2.2 rfl⟩

/-- C8 counterexample: a record whose `name` value is the empty string
parses successfully into a parameter whose name is empty, so parsing does
not guarantee a non-empty name. -/
theorem param_name_may_be_empty :
    PluginParameter.from_dict prEmptyName = Except.ok paramEmptyName ∧
    paramEmptyName.name = "" :=
  ⟨rfl, rfl⟩

/-- C8 amended: a parameter produced by parsing a declarative record
carries exactly the record's `name` value — which may be the empty
string. -/
theorem param_name_from_record (d : ParamRecord) (p : PluginParameter)
    (h : PluginParameter.from_dict d = Except.ok p) : d.name = some p.name :=
  (param_ok_inv d p h).1

/-- Witness for the amended C8 at a concrete record. -/
theorem param_name_from_record_witness : prGood.name = some paramGood.name :=
  param_name_from_record prGood paramGood rfl

/-! ## Loading and registry lemmas -/

theorem loadComponent_ok_inv (a : Bool) (emb : String → List Rat) (c : SpecRecord)
    (n : String) (e : PluginEntry) (h : loadComponent a emb c = Except.ok (n, e)) :
    e.enabled = true ∧ e.enabled = c.enabled.getD true ∧
    (a = true → e.spec.embedding = emb (e.name ++ ": " ++ e.spec.description)) ∧
    (a = false → PluginEntry.fromYamlContent c = Except.ok e) := by
  unfold loadComponent at h
  cases hy : PluginEntry.fromYamlContent c <;> rw [hy] at h
  · simp at h
  rename_i entry
  dsimp only at h
  by_cases hen : entry.enabled = false
  · rw [if_pos hen] at h
    simp at h
  rw [if_neg hen] at h
  rw [Bool.not_eq_false] at hen
  have hent := fromYamlContent_ok_inv c entry hy
  cases a with
  | false =>
    simp only [Bool.false_eq_true, if_false, Except.ok.injEq, Prod.mk.injEq] at h
    obtain ⟨h1, h2⟩ := h
    subst h2
    exact ⟨hen, hent.1, by intro hcon; exact absurd hcon (by decide), fun _ => rfl⟩
  | true =>
    simp only [if_true, Except.ok.injEq, Prod.mk.injEq] at h
    obtain ⟨h1, h2⟩ := h
    subst h2
    exact ⟨hen, hent.1, fun _ => rfl, by intro hcon; exact absurd hcon (by decide)⟩

theorem registryStep_enabled (a : Bool) (emb : String → List Rat)
    (acc : List (String × PluginEntry)) (content : SpecRecord)
    (hacc : ∀ q ∈ acc, (Prod.snd q).enabled = true) :
    ∀ q ∈ registryStep a emb acc content, (Prod.snd q).enabled = true := by
  intro q hq
  unfold registryStep at hq
  cases h : loadComponent a emb content <;> rw [h] at hq
  · exact hacc q hq
  rename_i pair
  obtain ⟨n, e⟩ := pair
  dsimp only at hq
  unfold insertEntry at hq
  rcases List.mem_append.mp hq with hq1 | hq1
  · exact hacc q (List.mem_filter.mp hq1).1
  · have h2 : q = (n, e) := by simpa using hq1
    subst h2
    exact (loadComponent_ok_inv a emb content n e h).1

theorem refresh_enabled_aux (a : Bool) (emb : String → List Rat) :
    ∀ (files : List SpecRecord) (acc : List (String × PluginEntry)),
      (∀ q ∈ acc, (Prod.snd q).enabled = true) →
      ∀ q ∈ files.foldl (registryStep a emb) acc, (Prod.snd q).enabled = true := by
  intro files
  induction files with
  | nil => intro acc hacc q hq; exact hacc q hq
  | cons f fs ih =>
    intro acc hacc q hq
    rw [List.foldl_cons] at hq
    exact ih (registryStep a emb acc f) (registryStep_enabled a emb acc f hacc) q hq

/-- C1: a record with `enabled: false` never loads — `_load_component`
raises instead of returning an entry — and, for the spec-modelled registry
refresh, every entry of the assembled snapshot is enabled, so a disabled
source file never appears in `list()` output. -/
theorem disabled_never_registered :
    (∀ a emb c, c.enabled = some false → exceptOk (loadComponent a emb c) = false) ∧
    (∀ a emb files e, e ∈ registryList a emb files → e.enabled = true) := by
  constructor
  · intro a emb c hc
    cases h : loadComponent a emb c with
    | error err => rfl
    | ok pair =>
      obtain ⟨n, e⟩ := pair
      exfalso
      obtain ⟨hen, henc, -, -⟩ := loadComponent_ok_inv a emb c n e h
      rw [hen, hc] at henc
      exact Bool.true_eq_false.mp henc
  · intro a emb files e he
    simp only [registryList] at he
    obtain ⟨q, hq, hqe⟩ := List.mem_map.mp he
    rw [← hqe]
    exact refresh_enabled_aux a emb files [] (by intro q2 hq2; simp at hq2) q hq

/-- Witness for C1: the concrete disabled record fails to load, and the
entry loaded from the enabled record (which appears in `list()`) is
enabled. -/
theorem disabled_never_registered_witness :
    exceptOk (loadComponent false embedLen recDisabled) = false ∧
    loadedPlain.enabled = true :=
  ⟨disabled_never_registered.1 false embedLen recDisabled rfl,
   disabled_never_registered.2 false embedLen [recGood] loadedPlain (by decide)⟩

/-- C4: with auto plugin selection enabled, loading stores on the entry's
spec exactly the collaborator's embedding of
`name ++ ": " ++ description`; with it disabled, the load result does not
depend on the embedding collaborator at all and the spec's embedding stays
empty. -/
theorem embedding_policy :
    (∀ emb c n e, loadComponent true emb c = Except.ok (n, e) →
      e.spec.embedding = emb (e.name ++ ": " ++ e.spec.description)) ∧
    (∀ emb emb2 c, loadComponent false emb c = loadComponent false emb2 c) ∧
    (∀ emb c n e, loadComponent false emb c = Except.ok (n, e) →
      e.spec.embedding = []) := by
  refine ⟨?_, ?_, ?_⟩
  · intro emb c n e h
    exact (loadComponent_ok_inv true emb c n e h).2.2.1 rfl
  · intro emb emb2 c
    unfold loadComponent
    cases PluginEntry.fromYamlContent c with
    | error err => rfl
    | ok entry =>
      dsimp only
      by_cases hen : entry.enabled = false
      · rw [if_pos hen, if_pos hen]
      · rw [if_neg hen, if_neg hen]
        simp
  · intro emb c n e h
    have hy := (loadComponent_ok_inv false emb c n e h).2.2.2 rfl
    have hs := (fromYamlContent_ok_inv c e hy).2.2.2.2.2
    exact (specFromDict_ok_inv c e.spec hs).2.2

/-- Witness for C4: the entry loaded from the concrete record with auto
selection on carries the `embedLen` embedding of
`"anomaly_detection: detect abnormal data points"`; with auto selection
off, the embedding stays empty. -/
theorem embedding_policy_witness :
    loadedAuto.spec.embedding =
      embedLen (loadedAuto.name ++ ": " ++ loadedAuto.spec.description) ∧
    loadedPlain.spec.embedding = ([] : List Rat) :=
  ⟨embedding_policy.1 embedLen recGood "anomaly_detection" loadedAuto rfl,
   embedding_policy.2.2 embedLen recGood "anomaly_detection" loadedPlain rfl⟩
